import Mathlib

/-!
Verification of the JAX-CV SimMIM pretraining loop
(`swinv2_pretraining_loop.py`, `Models/SimMIM.py`) via a shallow
embedding in Lean 4.  Tensors are modelled as functions out of `Fin`
index types into `ℚ` (exact arithmetic in place of floating point),
nested parameter trees as lists of path segments, and the training
state as a structure mirroring `TrainState`.
-/

namespace JAXCV

/-! ## Parameter decay classifier (`swinv2_pretraining_loop.py`, lines 55-58)

```
def should_decay(path, _):
    is_kernel = path[-1].key == "kernel"
    is_cpb = "attention_bias" in [x.key for x in path]
    return is_kernel and not is_cpb
```
A parameter path is modelled as the list of its segment keys, so
`path[-1].key` is `path.getLast?` and `[x.key for x in path]` is the
list itself. -/
def should_decay (path : List String) : Bool :=
  let is_kernel : Bool := path.getLast? == some "kernel"
  let is_cpb : Bool := path.contains "attention_bias"
  is_kernel && !is_cpb

/-! ## Masking head token blend (`Models/SimMIM.py`, lines 17-24)

`SwinTransformerForSimMIM.__call__` computes, after patch embedding,
`x = x * (1.0 - mask) + mask_tokens * mask` where `mask_tokens` is the
learned `[1,1,C]` embedding broadcast to `[B,L,C]` and `mask` is
reshaped to `[B,L,1]`.  We model the `[B,L,C]` grid of tokens as a
function, the broadcast of the `[1,1,C]` mask token as dependence on
the channel index only, and the `[B,L,1]` mask as dependence on batch
and position only. -/
def blend_tokens (B L C : ℕ) (x : Fin B → Fin L → Fin C → ℚ)
    (mask_token : Fin C → ℚ) (mask : Fin B → Fin L → ℚ) :
    Fin B → Fin L → Fin C → ℚ :=
  fun b l c => x b l c * (1 - mask b l) + mask_token c * mask b l

/-! ## SimMIM reconstruction loss (`Models/SimMIM.py`, lines 57-72)

```
mask = jnp.expand_dims(
    jnp.repeat(jnp.repeat(mask, self.patch_size, axis=1), self.patch_size, axis=2),
    axis=-1)
loss_recon = jnp.abs(x - x_rec)
loss = jnp.sum(loss_recon * mask) / (jnp.sum(mask) + 1e-5) / self.in_chans
```
The coarse mask has shape `[B, gh, gw]`; `jnp.repeat` with repeat
count `p` along an axis sends pixel index `i` to coarse index `i / p`
(nearest-neighbour upsampling at patch granularity).  The expanded
mask `[B, H, W, 1]` broadcasts over the channel axis of
`loss_recon : [B, H, W, C]`. -/

/-- Pixel-resolution mask: `mask_px b i j = mask b (i / p) (j / p)`,
the result of the two nested `jnp.repeat` calls with `p = patch_size`. -/
def upsample_mask (B gh gw p : ℕ) (mask : Fin B → Fin gh → Fin gw → ℚ) :
    Fin B → Fin (gh * p) → Fin (gw * p) → ℚ :=
  fun b i j =>
    mask b ⟨i.val / p, Nat.div_lt_of_lt_mul (Nat.mul_comm gh p ▸ i.isLt)⟩
      ⟨j.val / p, Nat.div_lt_of_lt_mul (Nat.mul_comm gw p ▸ j.isLt)⟩

/-- `jnp.sum(mask)` over the expanded `[B, H, W, 1]` mask. -/
def mask_px_sum (B gh gw p : ℕ) (mask : Fin B → Fin gh → Fin gw → ℚ) : ℚ :=
  ∑ b : Fin B, ∑ i : Fin (gh * p), ∑ j : Fin (gw * p),
    upsample_mask B gh gw p mask b i j

/-- `jnp.sum(loss_recon * mask)`: the masked L1 numerator, with the
pixel mask broadcast over the channel axis. -/
def masked_l1_sum (B gh gw p C : ℕ)
    (x x_rec : Fin B → Fin (gh * p) → Fin (gw * p) → Fin C → ℚ)
    (mask : Fin B → Fin gh → Fin gw → ℚ) : ℚ :=
  ∑ b : Fin B, ∑ i : Fin (gh * p), ∑ j : Fin (gw * p), ∑ c : Fin C,
    |x b i j c - x_rec b i j c| * upsample_mask B gh gw p mask b i j

/-- The ε guard of the denominator, `1e-5`. -/
def simmim_eps : ℚ := 1 / 100000

/-- `SimMIM.__call__` loss:
`sum(|x - x_rec| * mask_px) / (sum(mask_px) + 1e-5) / in_chans`. -/
def simmim_loss (B gh gw p C : ℕ) (in_chans : ℕ)
    (x x_rec : Fin B → Fin (gh * p) → Fin (gw * p) → Fin C → ℚ)
    (mask : Fin B → Fin gh → Fin gw → ℚ) : ℚ :=
  masked_l1_sum B gh gw p C x x_rec mask
    / (mask_px_sum B gh gw p mask + simmim_eps) / (in_chans : ℚ)

/-! ## Metrics accumulator

The running metric is `clu.metrics.Average` (external to the
repository; `swinv2_pretraining_loop.py` lines 52-53 and 95-97
construct and merge it).  Modelled from the spec: a `{sum, count}`
pair; `merge` adds componentwise; `compute` divides sum by count;
a single observed loss enters as `{sum = loss, count = 1}`. -/
structure Accum where
  sum : ℚ
  count : ℚ
  deriving DecidableEq, Repr

def Accum.merge (a b : Accum) : Accum :=
  { sum := a.sum + b.sum, count := a.count + b.count }

def Accum.compute (a : Accum) : ℚ := a.sum / a.count

/-- `gather_from_model_output(loss=loss)` for an `Average` metric:
one observation of value `loss`. -/
def Accum.ofLoss (loss : ℚ) : Accum := { sum := loss, count := 1 }

/-! ## Training state and the eval step
(`swinv2_pretraining_loop.py`, lines 25-28 and 101-116)

`TrainState` carries `step`, `params`, `opt_state` (from the base
flax `train_state.TrainState`), the `metrics` collection and the two
constant collections.  `apply_fn` is a field of the state; for
`eval_step` only its scalar loss output matters, so it is modelled as
a function from the variable collections and the batch to the loss. -/
structure TState (P O Cs PCs B : Type) where
  step : ℕ
  params : P
  opt_state : O
  constants : Cs
  pt_constants : PCs
  metrics : Accum
  apply_fn : P → Cs → PCs → B → ℚ

/--
```
def eval_step(*, state, batch):
    loss, _ = state.apply_fn({...params, constants, pt_constants...},
                             batch["images"], mask=batch["masks"], train=False)
    metric_updates = state.metrics.gather_from_model_output(loss=loss)
    metrics = state.metrics.merge(metric_updates)
    state = state.replace(metrics=metrics)
    return state
```
-/
def eval_step {P O Cs PCs B : Type} (state : TState P O Cs PCs B)
    (batch : B) : TState P O Cs PCs B :=
  let loss := state.apply_fn state.params state.constants state.pt_constants batch
  let metric_updates := Accum.ofLoss loss
  let metrics := state.metrics.merge metric_updates
  { state with metrics := metrics }

/-! ## Checkpoint restore flows (`swinv2_pretraining_loop.py`, lines 366-382)

```
if args.restore_params_ckpt is not None:
    ...
    restored = throwaway_manager.restore(latest_epoch, items=ckpt)
    state = state.replace(params=restored["model"].params)

latest_epoch = checkpoint_manager.latest_step()
if latest_epoch is not None:
    restored = checkpoint_manager.restore(latest_epoch, items=ckpt)
    state = state.replace(params=restored["model"].params)
    metrics_history = restored["metrics_history"]
else:
    latest_epoch = 0
```
A restored checkpoint holds a full `TState` (under `"model"`) and a
metrics history.  Both flows write only the `params` field into the
live state; the resume flow additionally replaces the metrics
history. -/

/-- Transfer restore: `state.replace(params=restored["model"].params)`. -/
def transfer_restore {P O Cs PCs B : Type}
    (state : TState P O Cs PCs B) (restored_model : TState P O Cs PCs B) :
    TState P O Cs PCs B :=
  { state with params := restored_model.params }

/-- Resume restore: `state.replace(params=restored["model"].params)`
together with `metrics_history = restored["metrics_history"]`. -/
def resume_restore {P O Cs PCs B H : Type}
    (state : TState P O Cs PCs B)
    (restored_model : TState P O Cs PCs B) (restored_history : H) :
    TState P O Cs PCs B × H :=
  ({ state with params := restored_model.params }, restored_history)

/-- The startup restore sequence: an optional transfer restore from an
external checkpoint, then (when the run's own store holds a
checkpoint) the resume restore. -/
def startup_restores {P O Cs PCs B H : Type}
    (fresh : TState P O Cs PCs B) (fresh_history : H)
    (transfer_ckpt : Option (TState P O Cs PCs B))
    (own_ckpt : Option (TState P O Cs PCs B × H)) :
    TState P O Cs PCs B × H :=
  let s1 := match transfer_ckpt with
    | some t => transfer_restore fresh t
    | none => fresh
  match own_ckpt with
  | some (r, h) => resume_restore s1 r h
  | none => (s1, fresh_history)

/-! ## Epoch indexing of saves
(`swinv2_pretraining_loop.py`, lines 376-382 and 434-444)

`latest_epoch` is `checkpoint_manager.latest_step()` when a checkpoint
exists and `0` otherwise; the in-process epoch counter `epochs` starts
at `0` and is incremented after each save; the save call uses index
`epochs + latest_epoch`. -/

/-- `latest_epoch` after the resume branch: the stored latest step, or
`0` when the store is empty. -/
def init_latest_epoch (latest : Option ℕ) : ℕ := latest.getD 0

/-- The index passed to `checkpoint_manager.save`: `epochs + latest_epoch`. -/
def save_epoch_index (epochs latest_epoch : ℕ) : ℕ := epochs + latest_epoch

/-! ## Validation loop step count (`swinv2_pretraining_loop.py`, lines 415-419)

```
for val_step, val_batch in enumerate(val_ds):
    val_state = p_eval_step(state=val_state, batch=val_batch)
    if val_step == val_samples // global_batch_size:
        break
```
`enumerate` starts at 0 and the break test runs **after** the eval
step call, so steps execute at indices `0, 1, ..., q` where
`q = val_samples // global_batch_size` (the batch source is an
unbounded lazy sequence, so the iterator never ends first). -/

/-- Number of `p_eval_step` calls the loop performs, by recursion on
the distance remaining to the break index: one call always happens
before the break test; the loop continues while `val_step < q`. -/
def eval_loop_from : ℕ → ℕ
  | 0 => 1
  | r + 1 => 1 + eval_loop_from r

/-- Eval steps executed per epoch with break index
`val_samples / global_batch_size`. -/
def num_val_steps_executed (val_samples global_batch_size : ℕ) : ℕ :=
  eval_loop_from (val_samples / global_batch_size)

/-! ## Checkpoint retention

The retention policy is executed by the orbax `CheckpointManager`,
external to this repository; `swinv2_pretraining_loop.py` lines
353-364 configure it with `max_to_keep=2`,
`best_fn=lambda metrics: metrics["val_loss"]` and `best_mode="min"`.
Modelled from the spec: `save` persists a Checkpoint Record and, if
more than K records then exist, evicts the one with the worst (largest)
selection metric, ties broken by evicting the earliest epoch first. -/

/-- Modelled from the spec: a Checkpoint Record, reduced to the fields
the retention policy inspects (epoch index and selection metric). -/
structure CkptRec where
  epoch : ℕ
  metric : ℚ
  deriving DecidableEq, Repr

/-- Modelled from the spec: evict the record with the worst selection
metric, earliest epoch first among ties.  Records are stored in save
(hence epoch) order, so this removes the first record whose metric is
maximal. -/
def evictWorst : List CkptRec → List CkptRec
  | [] => []
  | r :: rs =>
    if rs.all fun s => s.metric ≤ r.metric then rs
    else r :: evictWorst rs

/-- Modelled from the spec: `save` appends the new record and evicts
the worst one if more than `K` records now exist. -/
def ckpt_save (K : ℕ) (recs : List CkptRec) (r : CkptRec) : List CkptRec :=
  if K < (recs ++ [r]).length then evictWorst (recs ++ [r]) else recs ++ [r]

/-- The records retained after a sequence of saves into an initially
empty store. -/
def ckpt_save_all (K : ℕ) (saves : List CkptRec) : List CkptRec :=
  saves.foldl (ckpt_save K) []

/-! ## Learning-rate schedule (`swinv2_pretraining_loop.py`, lines 323-330)

```
learning_rate = optax.warmup_cosine_decay_schedule(
    init_value=learning_rate * 0.1,
    peak_value=learning_rate,
    warmup_steps=num_steps_per_epoch * warmup_epochs,
    decay_steps=num_steps_per_epoch * num_epochs,
    end_value=learning_rate * 0.01,
)
```
`optax.warmup_cosine_decay_schedule` itself is external to the
repository. -/

/-- Modelled from the spec: `optax.warmup_cosine_decay_schedule` is a
pure function of the global step: linear interpolation from
`init_value` to `peak_value` on `[0, warmup_steps]`, cosine decay from
`peak_value` to `end_value` on `[warmup_steps, decay_steps]`, constant
at `end_value` afterwards. -/
noncomputable def warmup_cosine_decay_schedule
    (init_value peak_value end_value : ℝ) (warmup_steps decay_steps : ℕ)
    (step : ℕ) : ℝ :=
  if step < warmup_steps then
    init_value + (peak_value - init_value) * step / warmup_steps
  else if step ≤ decay_steps then
    end_value + (peak_value - end_value) *
      (1 + Real.cos (Real.pi * ((step : ℝ) - warmup_steps)
        / ((decay_steps : ℝ) - warmup_steps))) / 2
  else end_value

/-- The schedule as configured at the call site:
`init = 0.1 * peak` and `end = 0.01 * peak`. -/
noncomputable def pretraining_lr_schedule (learning_rate : ℝ)
    (warmup_steps decay_steps step : ℕ) : ℝ :=
  warmup_cosine_decay_schedule (learning_rate * 0.1) learning_rate
    (learning_rate * 0.01) warmup_steps decay_steps step

end JAXCV

namespace JAXCV

/-! ## Claim C5: decay predicate -/

/-- C5: `should_decay path` is true iff the final segment of the path
is `"kernel"` and no segment of the path is `"attention_bias"`; in
particular it is false whenever `"attention_bias"` occurs anywhere in
the path, and false for any `"bias"`- or `"scale"`-named leaf. -/
theorem should_decay_spec (path : List String) :
    (should_decay path = true ↔
      path.getLast? = some "kernel" ∧ ¬ ("attention_bias" ∈ path)) ∧
    ("attention_bias" ∈ path → should_decay path = false) ∧
    (path.getLast? = some "bias" ∨ path.getLast? = some "scale" →
      should_decay path = false) := by
  refine ⟨?_, ?_, ?_⟩
  · simp [should_decay]
  · intro hmem
    simp [should_decay, hmem]
  · intro hlast
    rcases hlast with h | h <;>
      simp [should_decay, h]

/-- Witness for C5: concrete evaluations of `should_decay`. -/
theorem should_decay_spec_witness :
    should_decay ["encoder", "dense", "kernel"] = true ∧
    should_decay ["encoder", "attention_bias", "kernel"] = false ∧
    should_decay ["encoder", "dense", "bias"] = false := by
  refine ⟨?_, ?_, ?_⟩
  · exact (should_decay_spec ["encoder", "dense", "kernel"]).1.2 (by decide)
  · exact (should_decay_spec ["encoder", "attention_bias", "kernel"]).2.1
      (by decide)
  · exact (should_decay_spec ["encoder", "dense", "bias"]).2.2 (Or.inl (by decide))

/-! ## Claim C2: token blend -/

/-- C2: for every batch/position/channel, if the mask value is 0 the
blended token equals the original encoder token, and if it is 1 the
blended token equals the broadcast mask-token embedding. -/
theorem blend_tokens_spec (B L C : ℕ) (x : Fin B → Fin L → Fin C → ℚ)
    (mask_token : Fin C → ℚ) (mask : Fin B → Fin L → ℚ)
    (b : Fin B) (l : Fin L) (c : Fin C) :
    (mask b l = 0 → blend_tokens B L C x mask_token mask b l c = x b l c) ∧
    (mask b l = 1 → blend_tokens B L C x mask_token mask b l c = mask_token c) := by
  constructor
  · intro h0
    simp [blend_tokens, h0]
  · intro h1
    simp [blend_tokens, h1]

/-- Witness for C2: a concrete 1×2 grid with one masked and one
unmasked position. -/
theorem blend_tokens_spec_witness :
    ((fun _ l => if l = (0 : Fin 2) then (0 : ℚ) else 1) (0 : Fin 1) (0 : Fin 2) = 0 →
      blend_tokens 1 2 1 (fun _ _ _ => 5) (fun _ => 9)
        (fun _ l => if l = (0 : Fin 2) then (0 : ℚ) else 1) 0 0 0 = 5) ∧
    ((fun _ l => if l = (0 : Fin 2) then (0 : ℚ) else 1) (0 : Fin 1) (1 : Fin 2) = 1 →
      blend_tokens 1 2 1 (fun _ _ _ => 5) (fun _ => 9)
        (fun _ l => if l = (0 : Fin 2) then (0 : ℚ) else 1) 0 1 0 = 9) := by
  constructor
  · intro h
    exact (blend_tokens_spec 1 2 1 (fun _ _ _ => 5) (fun _ => 9)
      (fun _ l => if l = (0 : Fin 2) then (0 : ℚ) else 1) 0 0 0).1 h
  · intro h
    exact (blend_tokens_spec 1 2 1 (fun _ _ _ => 5) (fun _ => 9)
      (fun _ l => if l = (0 : Fin 2) then (0 : ℚ) else 1) 0 1 0).2 h

/-! ## Claim C8: metrics accumulator algebra -/

/-- C8: the metrics-accumulator merge is associative and commutative,
and `compute` after merging two non-empty accumulators with sums
`s1, s2` and counts `c1, c2` equals `(s1 + s2) / (c1 + c2)`. -/
theorem accum_merge_spec (a b c : Accum) :
    (a.merge b).merge c = a.merge (b.merge c) ∧
    a.merge b = b.merge a ∧
    (0 < a.count → 0 < b.count →
      (a.merge b).compute = (a.sum + b.sum) / (a.count + b.count)) := by
  refine ⟨?_, ?_, ?_⟩
  · simp [Accum.merge, add_assoc]
  · simp [Accum.merge, add_comm]
  · intro _ _
    rfl

/-- Witness for C8: concrete accumulators with positive counts. -/
theorem accum_merge_spec_witness :
    ((0 : ℚ) < (Accum.mk 3 1).count) ∧ ((0 : ℚ) < (Accum.mk 5 2).count) ∧
    ((Accum.mk 3 1).merge (Accum.mk 5 2)).compute = (3 + 5) / (1 + 2) := by
  refine ⟨by norm_num [Accum.count], by norm_num [Accum.count], ?_⟩
  exact (accum_merge_spec (Accum.mk 3 1) (Accum.mk 5 2) (Accum.mk 0 0)).2.2
    (by norm_num) (by norm_num)

/-! ## Claim C9: eval step frame condition -/

/-- C9: `eval_step` returns a state that differs from the input state
only in the metrics field: parameters, optimizer state, step counter,
both constant collections and the apply function are unchanged. -/
theorem eval_step_frame {P O Cs PCs B : Type}
    (state : TState P O Cs PCs B) (batch : B) :
    (eval_step state batch).params = state.params ∧
    (eval_step state batch).opt_state = state.opt_state ∧
    (eval_step state batch).step = state.step ∧
    (eval_step state batch).constants = state.constants ∧
    (eval_step state batch).pt_constants = state.pt_constants ∧
    (eval_step state batch).apply_fn = state.apply_fn :=
  ⟨rfl, rfl, rfl, rfl, rfl, rfl⟩

/-- Witness for C9: a concrete state over `ℕ`-valued collections. -/
theorem eval_step_frame_witness :
    (eval_step (TState.mk 4 10 20 30 40 (Accum.mk 0 0) (fun _ _ _ _ => 2)) 7).params
      = (10 : ℕ) ∧
    (eval_step (TState.mk 4 10 20 30 40 (Accum.mk 0 0) (fun _ _ _ _ => 2)) 7).step
      = 4 :=
  ⟨(eval_step_frame (B := ℕ)
      (TState.mk 4 10 20 30 40 (Accum.mk 0 0) (fun _ _ _ _ => 2)) 7).1,
   (eval_step_frame (B := ℕ)
      (TState.mk 4 10 20 30 40 (Accum.mk 0 0) (fun _ _ _ _ => 2)) 7).2.2.1⟩

/-! ## Claim C10: save index after resume -/

/-- C10: the save index is `epochs + latest_epoch` with the in-process
epoch counter starting at 0, so the first save after a resume from
epoch `e` is written at index `e` itself, not at `e + 1`. -/
theorem first_save_index_after_resume (e : ℕ) :
    save_epoch_index 0 (init_latest_epoch (some e)) = e ∧
    save_epoch_index 0 (init_latest_epoch (some e)) ≠ e + 1 := by
  refine ⟨?_, ?_⟩ <;> simp [save_epoch_index, init_latest_epoch]

/-- Witness for C10: resuming from epoch 5 saves first at index 5. -/
theorem first_save_index_after_resume_witness :
    save_epoch_index 0 (init_latest_epoch (some 5)) = 5 ∧
    save_epoch_index 0 (init_latest_epoch (some 5)) ≠ 6 :=
  first_save_index_after_resume 5

/-! ## Claim C1: resume restore does not restore step or optimizer state -/

/-- Counterexample to C1: with a fresh state whose step is 0 and
optimizer state 2, and an own-store checkpoint whose state has step 7
and optimizer state 40, the state produced by a transfer restore
followed by the resume restore keeps the freshly-initialized step and
optimizer state — they do not come from the resume source. -/
theorem resume_restore_counterexample :
    ((startup_restores (B := ℕ) (H := List ℚ)
        (TState.mk 0 (1 : ℕ) (2 : ℕ) (3 : ℕ) (4 : ℕ) (Accum.mk 0 0)
          (fun _ _ _ _ => 0))
        []
        (some (TState.mk 100 10 20 30 40 (Accum.mk 0 0) (fun _ _ _ _ => 0)))
        (some (TState.mk 7 11 40 31 41 (Accum.mk 0 0) (fun _ _ _ _ => 0),
          [5]))).1.step ≠ 7) ∧
    ((startup_restores (B := ℕ) (H := List ℚ)
        (TState.mk 0 (1 : ℕ) (2 : ℕ) (3 : ℕ) (4 : ℕ) (Accum.mk 0 0)
          (fun _ _ _ _ => 0))
        []
        (some (TState.mk 100 10 20 30 40 (Accum.mk 0 0) (fun _ _ _ _ => 0)))
        (some (TState.mk 7 11 40 31 41 (Accum.mk 0 0) (fun _ _ _ _ => 0),
          [5]))).1.opt_state ≠ 40) := by
  refine ⟨?_, ?_⟩ <;>
    simp [startup_restores, resume_restore, transfer_restore]

/-- C1 amended: the resume restore supersedes the transfer restore for
the parameters and the metrics history only; the step counter,
optimizer state and constant collections of the resulting state are
those of the freshly-initialized state, not of the resume (or
transfer) source. -/
theorem startup_restores_resume_spec {P O Cs PCs B H : Type}
    (fresh : TState P O Cs PCs B) (fresh_history : H)
    (transfer_model resume_model : TState P O Cs PCs B)
    (resume_history : H) :
    (startup_restores fresh fresh_history (some transfer_model)
        (some (resume_model, resume_history))).1.params = resume_model.params ∧
    (startup_restores fresh fresh_history (some transfer_model)
        (some (resume_model, resume_history))).2 = resume_history ∧
    (startup_restores fresh fresh_history (some transfer_model)
        (some (resume_model, resume_history))).1.step = fresh.step ∧
    (startup_restores fresh fresh_history (some transfer_model)
        (some (resume_model, resume_history))).1.opt_state = fresh.opt_state ∧
    (startup_restores fresh fresh_history (some transfer_model)
        (some (resume_model, resume_history))).1.constants = fresh.constants ∧
    (startup_restores fresh fresh_history (some transfer_model)
        (some (resume_model, resume_history))).1.pt_constants = fresh.pt_constants :=
  ⟨rfl, rfl, rfl, rfl, rfl, rfl⟩

/-- Witness for C1 amended: concrete fresh/transfer/resume states. -/
theorem startup_restores_resume_spec_witness :
    (startup_restores (B := ℕ) (H := List ℚ)
        (TState.mk 0 (1 : ℕ) (2 : ℕ) (3 : ℕ) (4 : ℕ) (Accum.mk 0 0)
          (fun _ _ _ _ => 0))
        []
        (some (TState.mk 100 10 20 30 40 (Accum.mk 0 0) (fun _ _ _ _ => 0)))
        (some (TState.mk 7 11 40 31 41 (Accum.mk 0 0) (fun _ _ _ _ => 0),
          [5]))).1.params = 11 ∧
    (startup_restores (B := ℕ) (H := List ℚ)
        (TState.mk 0 (1 : ℕ) (2 : ℕ) (3 : ℕ) (4 : ℕ) (Accum.mk 0 0)
          (fun _ _ _ _ => 0))
        []
        (some (TState.mk 100 10 20 30 40 (Accum.mk 0 0) (fun _ _ _ _ => 0)))
        (some (TState.mk 7 11 40 31 41 (Accum.mk 0 0) (fun _ _ _ _ => 0),
          [5]))).1.step = 0 :=
  ⟨(startup_restores_resume_spec
      (TState.mk 0 (1 : ℕ) (2 : ℕ) (3 : ℕ) (4 : ℕ) (Accum.mk 0 0)
        (fun _ _ _ _ => 0)) []
      (TState.mk 100 10 20 30 40 (Accum.mk 0 0) (fun _ _ _ _ => 0))
      (TState.mk 7 11 40 31 41 (Accum.mk 0 0) (fun _ _ _ _ => 0)) [5]).1,
   (startup_restores_resume_spec
      (TState.mk 0 (1 : ℕ) (2 : ℕ) (3 : ℕ) (4 : ℕ) (Accum.mk 0 0)
        (fun _ _ _ _ => 0)) []
      (TState.mk 100 10 20 30 40 (Accum.mk 0 0) (fun _ _ _ _ => 0))
      (TState.mk 7 11 40 31 41 (Accum.mk 0 0) (fun _ _ _ _ => 0)) [5]).2.2.1⟩

/-! ## Claim C3: reconstruction loss -/

/-- The masked L1 numerator is nonnegative when the mask is. -/
lemma masked_l1_sum_nonneg (B gh gw p C in_chans : ℕ)
    (x x_rec : Fin B → Fin (gh * p) → Fin (gw * p) → Fin C → ℚ)
    (mask : Fin B → Fin gh → Fin gw → ℚ)
    (hmask : ∀ b g w, 0 ≤ mask b g w) :
    0 ≤ masked_l1_sum B gh gw p C x x_rec mask := by
  have _ := in_chans
  refine Finset.sum_nonneg fun b _ => Finset.sum_nonneg fun i _ =>
    Finset.sum_nonneg fun j _ => Finset.sum_nonneg fun c _ => ?_
  exact mul_nonneg (abs_nonneg _) (hmask _ _ _)

/-- The pixel-mask sum is nonnegative when the mask is. -/
lemma mask_px_sum_nonneg (B gh gw p : ℕ)
    (mask : Fin B → Fin gh → Fin gw → ℚ)
    (hmask : ∀ b g w, 0 ≤ mask b g w) :
    0 ≤ mask_px_sum B gh gw p mask := by
  refine Finset.sum_nonneg fun b _ => Finset.sum_nonneg fun i _ =>
    Finset.sum_nonneg fun j _ => ?_
  exact hmask _ _ _

/-- C3: with a nonnegative coarse mask, the SimMIM loss — which by
definition is `sum(|x - x_rec| * mask_px) / (sum(mask_px) + ε) / in_chans`
with the mask upsampled to pixel resolution by nearest-neighbour
repetition — is nonnegative, its denominator `sum(mask_px) + ε` is
strictly positive (no division by zero), and when the mask is entirely
zero the loss is exactly zero. -/
theorem simmim_loss_spec (B gh gw p C in_chans : ℕ)
    (x x_rec : Fin B → Fin (gh * p) → Fin (gw * p) → Fin C → ℚ)
    (mask : Fin B → Fin gh → Fin gw → ℚ)
    (hmask : ∀ b g w, 0 ≤ mask b g w) :
    0 ≤ simmim_loss B gh gw p C in_chans x x_rec mask ∧
    0 < mask_px_sum B gh gw p mask + simmim_eps ∧
    ((∀ b g w, mask b g w = 0) →
      simmim_loss B gh gw p C in_chans x x_rec mask = 0) := by
  have hden : 0 < mask_px_sum B gh gw p mask + simmim_eps := by
    have h1 := mask_px_sum_nonneg B gh gw p mask hmask
    have h2 : (0 : ℚ) < simmim_eps := by norm_num [simmim_eps]
    linarith
  refine ⟨?_, hden, ?_⟩
  · refine div_nonneg (div_nonneg ?_ hden.le) (Nat.cast_nonneg _)
    exact masked_l1_sum_nonneg B gh gw p C in_chans x x_rec mask hmask
  · intro hzero
    have hnum : masked_l1_sum B gh gw p C x x_rec mask = 0 := by
      refine Finset.sum_eq_zero fun b _ => Finset.sum_eq_zero fun i _ =>
        Finset.sum_eq_zero fun j _ => Finset.sum_eq_zero fun c _ => ?_
      simp [upsample_mask, hzero]
    simp [simmim_loss, hnum]

/-- Witness for C3: a 1×1 coarse grid upsampled by patch size 1, with
mask value 1 everywhere. -/
theorem simmim_loss_spec_witness :
    (∀ (b : Fin 1) (g : Fin 1) (w : Fin 1),
      (0 : ℚ) ≤ (fun _ _ _ => (1 : ℚ)) b g w) ∧
    0 ≤ simmim_loss 1 1 1 1 1 1 (fun _ _ _ _ => 3) (fun _ _ _ _ => 1)
      (fun _ _ _ => 1) :=
  ⟨fun _ _ _ => by norm_num,
   (simmim_loss_spec 1 1 1 1 1 1 (fun _ _ _ _ => 3) (fun _ _ _ _ => 1)
      (fun _ _ _ => 1) (fun _ _ _ => by norm_num)).1⟩

/-! ## Claim C7: validation loop step count -/

/-- Counterexample to C7: with `val_samples = 10` and
`global_batch_size = 4`, the loop performs 3 eval steps, not
`10 / 4 = 2`: the break test runs only after the step at index
`val_samples / global_batch_size` has already executed. -/
theorem eval_loop_count_counterexample :
    num_val_steps_executed 10 4 = 3 ∧ (10 : ℕ) / 4 = 2 ∧
    num_val_steps_executed 10 4 ≠ 10 / 4 := by
  decide

/-- C7 amended: for every epoch the validation loop executes exactly
`val_samples / global_batch_size + 1` eval steps before stopping —
one more than the floor quotient, because the break test follows the
step call. -/
theorem num_val_steps_executed_eq (val_samples global_batch_size : ℕ) :
    num_val_steps_executed val_samples global_batch_size =
      val_samples / global_batch_size + 1 := by
  unfold num_val_steps_executed
  generalize val_samples / global_batch_size = q
  induction q with
  | zero => rfl
  | succ r ih => simpa [eval_loop_from, ih] using Nat.add_comm 1 (r + 1)

/-- Witness for C7 amended: the concrete instance from the
counterexample, derived from the general count. -/
theorem num_val_steps_executed_eq_witness :
    num_val_steps_executed 10 4 = 10 / 4 + 1 :=
  num_val_steps_executed_eq 10 4

/-! ## Claim C6: best-K checkpoint retention -/

/-- `evictWorst` on a nonempty list removes exactly one record `w`
whose metric is maximal in the whole list. -/
lemma evictWorst_spec :
    ∀ l : List CkptRec, l ≠ [] →
      ∃ w, w ∈ l ∧ l.Perm (w :: evictWorst l) ∧
        ∀ x ∈ l, x.metric ≤ w.metric
  | [], h => absurd rfl h
  | r :: rs, _ => by
    by_cases hall : rs.all (fun s => s.metric ≤ r.metric) = true
    · refine ⟨r, List.mem_cons_self r rs, ?_, ?_⟩
      · simp [evictWorst, hall]
      · intro x hx
        rcases List.mem_cons.mp hx with h | h
        · subst h; exact le_refl _
        · simpa using List.all_eq_true.mp hall x h
    · have hne : rs ≠ [] := by
        rintro rfl
        simp at hall
      obtain ⟨w, hw, hperm, hmax⟩ := evictWorst_spec rs hne
      have hrw : r.metric ≤ w.metric := by
        have hex : ∃ s ∈ rs, ¬ s.metric ≤ r.metric := by
          simpa [List.all_eq_true] using hall
        obtain ⟨s, hs, hsr⟩ := hex
        exact le_trans (le_of_lt (lt_of_not_le hsr)) (hmax s hs)
      refine ⟨w, List.mem_cons_of_mem r hw, ?_, ?_⟩
      · have h1 : evictWorst (r :: rs) = r :: evictWorst rs := by
          simp [evictWorst, hall]
        rw [h1]
        exact (hperm.cons r).trans (List.Perm.swap w r (evictWorst rs))
      · intro x hx
        rcases List.mem_cons.mp hx with h | h
        · subst h; exact hrw
        · exact hmax x h

/-- Folding `ckpt_save` preserves the best-K invariant: the retained
records are exactly `min (observed) K` many, they are a sub-multiset
of everything observed, and every retained metric is at most every
evicted metric. -/
lemma ckpt_fold_spec (K : ℕ) :
    ∀ (saves acc ev : List CkptRec),
      acc.length ≤ K →
      (acc.length < K → ev = []) →
      (∀ r ∈ acc, ∀ e ∈ ev, r.metric ≤ e.metric) →
      ∃ ev2 : List CkptRec,
        (List.foldl (ckpt_save K) acc saves).length
          = min (acc.length + ev.length + saves.length) K ∧
        ((acc ++ ev) ++ saves).Perm (List.foldl (ckpt_save K) acc saves ++ ev2) ∧
        ∀ r ∈ List.foldl (ckpt_save K) acc saves, ∀ e ∈ ev2,
          r.metric ≤ e.metric
  | [], acc, ev, hlen, hfull, hsep => by
    refine ⟨ev, ?_, by simp, hsep⟩
    by_cases h : ev = []
    · subst h; simp; omega
    · have hK : acc.length = K := by
        rcases lt_or_eq_of_le hlen with h1 | h1
        · exact absurd (hfull h1) h
        · exact h1
      simp [hK]
  | m :: rest, acc, ev, hlen, hfull, hsep => by
    by_cases hover : K < (acc ++ [m]).length
    · -- more than K records now exist: the worst is evicted
      have hKa : acc.length = K := by
        simp only [List.length_append, List.length_singleton] at hover
        omega
      have hne : acc ++ [m] ≠ [] := by simp
      obtain ⟨w, hwmem, hperm, hmax⟩ := evictWorst_spec (acc ++ [m]) hne
      have hstep : ckpt_save K acc m = evictWorst (acc ++ [m]) := by
        unfold ckpt_save
        rw [if_pos hover]
      have hfold : List.foldl (ckpt_save K) acc (m :: rest)
          = List.foldl (ckpt_save K) (evictWorst (acc ++ [m])) rest := by
        rw [List.foldl_cons, hstep]
      have hlen2 : (evictWorst (acc ++ [m])).length = K := by
        have h5 := hperm.length_eq
        simp at h5
        omega
      have hsep2 : ∀ r ∈ evictWorst (acc ++ [m]), ∀ e ∈ w :: ev,
          r.metric ≤ e.metric := by
        intro r hr e he
        have hrmem : r ∈ acc ++ [m] :=
          hperm.mem_iff.mpr (List.mem_cons_of_mem w hr)
        rcases List.mem_cons.mp he with rfl | hev
        · exact hmax r hrmem
        · rcases List.mem_append.mp hrmem with hracc | hrm
          · exact hsep r hracc e hev
          · -- r is the fresh record m
            rcases List.mem_append.mp hwmem with hwacc | hwm
            · calc r.metric ≤ w.metric := hmax r hrmem
                _ ≤ e.metric := hsep w hwacc e hev
            · -- the fresh record itself was evicted, so r was already in acc
              have hwm : w = m := List.mem_singleton.mp hwm
              have hacc2 : acc.Perm (evictWorst (acc ++ [m])) := by
                have h2 : (acc ++ [m]).Perm (m :: acc) :=
                  List.perm_append_singleton m acc
                have h3 : (m :: acc).Perm (m :: evictWorst (acc ++ [m])) := by
                  have h4 := h2.symm.trans hperm
                  rwa [hwm] at h4
                exact (List.perm_cons m).mp h3
              exact hsep r (hacc2.mem_iff.mpr hr) e hev
      obtain ⟨ev2, hl, hp, hs⟩ := ckpt_fold_spec K rest
        (evictWorst (acc ++ [m])) (w :: ev)
        (le_of_eq hlen2) (fun h => absurd h (by omega)) hsep2
      rw [hfold]
      refine ⟨ev2, ?_, ?_, hs⟩
      · rw [hl, hlen2, hKa]
        simp only [List.length_cons, List.length_append]
        omega
      · refine List.Perm.trans ?_ hp
        -- (acc ++ ev) ++ m :: rest ~ (evictWorst (acc ++ [m]) ++ (w :: ev)) ++ rest
        have h1 : (acc ++ ev) ++ (m :: rest)
            = ((acc ++ ev) ++ [m]) ++ rest := by
          simp [List.append_assoc]
        rw [h1]
        refine List.Perm.append_right rest ?_
        have h2 : ((acc ++ ev) ++ [m]).Perm ((acc ++ [m]) ++ ev) := by
          rw [List.append_assoc, List.append_assoc]
          exact List.Perm.append_left acc List.perm_append_comm
        refine h2.trans ?_
        refine (hperm.append_right ev).trans ?_
        rw [List.cons_append]
        exact List.perm_middle.symm
    · -- at most K records exist: the new record is simply appended
      have hlt : acc.length < K := by
        simp only [List.length_append, List.length_singleton] at hover
        omega
      have hev : ev = [] := hfull hlt
      subst hev
      have hstep : ckpt_save K acc m = acc ++ [m] := by
        unfold ckpt_save
        rw [if_neg hover]
      have hfold : List.foldl (ckpt_save K) acc (m :: rest)
          = List.foldl (ckpt_save K) (acc ++ [m]) rest := by
        rw [List.foldl_cons, hstep]
      obtain ⟨ev2, hl, hp, hs⟩ := ckpt_fold_spec K rest (acc ++ [m]) []
        (by simp only [List.length_append, List.length_singleton]; omega)
        (fun _ => rfl) (by simp)
      rw [hfold]
      refine ⟨ev2, ?_, ?_, hs⟩
      · rw [hl]
        simp only [List.length_cons, List.length_append, List.length_nil,
          List.length_singleton]
        omega
      · refine List.Perm.trans ?_ hp
        simp [List.append_assoc]

/-- C6: after any sequence of saves, the retained records number
`min (saves so far) K` and every retained selection metric is at most
every evicted one — the retained set is exactly the K best observed;
in particular with `K = 2` the metric sequence
`[0.9, 0.5, 0.7, 0.4]` retains exactly the records with metrics
`0.5` and `0.4`. -/
theorem ckpt_retention_spec (K : ℕ) (saves : List CkptRec) :
    ((ckpt_save_all K saves).length = min saves.length K ∧
      ∃ evicted, saves.Perm (ckpt_save_all K saves ++ evicted) ∧
        ∀ r ∈ ckpt_save_all K saves, ∀ e ∈ evicted,
          r.metric ≤ e.metric) ∧
    ckpt_save_all 2
        [⟨0, 9/10⟩, ⟨1, 1/2⟩, ⟨2, 7/10⟩, ⟨3, 2/5⟩]
      = [⟨1, 1/2⟩, ⟨3, 2/5⟩] := by
  constructor
  · obtain ⟨ev2, hl, hp, hs⟩ := ckpt_fold_spec K saves [] []
      (by simp) (fun _ => rfl) (by simp)
    refine ⟨?_, ev2, ?_, hs⟩
    · simpa [ckpt_save_all, Nat.min_comm] using hl
    · simpa [ckpt_save_all] using hp
  · norm_num [ckpt_save_all, ckpt_save, evictWorst]

/-- Witness for C6: the length part of the invariant at the concrete
metric sequence of the claim. -/
theorem ckpt_retention_spec_witness :
    (ckpt_save_all 2
        [⟨0, 9/10⟩, ⟨1, 1/2⟩, ⟨2, 7/10⟩, ⟨3, 2/5⟩]).length
      = min 4 2 :=
  (ckpt_retention_spec 2
    [⟨0, 9/10⟩, ⟨1, 1/2⟩, ⟨2, 7/10⟩, ⟨3, 2/5⟩]).1.1

/-! ## Claim C4: learning-rate schedule -/

/-- Closed form of the schedule during warmup, at
`peak = 1e-3`, `warmup = 10`, `decay = 100`. -/
lemma lr_warmup_val (s : ℕ) (hs : s < 10) :
    pretraining_lr_schedule (1/1000) 10 100 s
      = 1/10000 + 9/10000 * (s : ℝ) / 10 := by
  unfold pretraining_lr_schedule warmup_cosine_decay_schedule
  rw [if_pos hs]
  norm_num

/-- Closed form of the schedule during cosine decay, at
`peak = 1e-3`, `warmup = 10`, `decay = 100`. -/
lemma lr_cosine_val (s : ℕ) (h1 : 10 ≤ s) (h2 : s ≤ 100) :
    pretraining_lr_schedule (1/1000) 10 100 s
      = 1/100000 + 99/100000 *
          (1 + Real.cos (Real.pi * ((s : ℝ) - 10) / 90)) / 2 := by
  unfold pretraining_lr_schedule warmup_cosine_decay_schedule
  rw [if_neg (by omega), if_pos h2]
  norm_num

/-- C4: at `peak = 1e-3`, `warmup_steps = 10`, `decay_steps = 100`,
the schedule takes value `1e-4` at step 0, exactly `peak = 1e-3` at
step 10, `1e-5` at step 100, is monotone non-decreasing on `[0, 10]`
and monotone non-increasing on `[10, 100]`. -/
theorem lr_schedule_spec :
    pretraining_lr_schedule (1/1000) 10 100 0 = 1/10000 ∧
    pretraining_lr_schedule (1/1000) 10 100 10 = 1/1000 ∧
    pretraining_lr_schedule (1/1000) 10 100 100 = 1/100000 ∧
    (∀ s t : ℕ, s ≤ t → t ≤ 10 →
      pretraining_lr_schedule (1/1000) 10 100 s
        ≤ pretraining_lr_schedule (1/1000) 10 100 t) ∧
    (∀ s t : ℕ, 10 ≤ s → s ≤ t → t ≤ 100 →
      pretraining_lr_schedule (1/1000) 10 100 t
        ≤ pretraining_lr_schedule (1/1000) 10 100 s) := by
  have h10 : pretraining_lr_schedule (1/1000) 10 100 10 = 1/1000 := by
    rw [lr_cosine_val 10 (le_refl 10) (by norm_num)]
    norm_num [Real.cos_zero]
  refine ⟨?_, h10, ?_, ?_, ?_⟩
  · rw [lr_warmup_val 0 (by norm_num)]
    norm_num
  · rw [lr_cosine_val 100 (by norm_num) (le_refl 100)]
    have harg : Real.pi * (((100 : ℕ) : ℝ) - 10) / 90 = Real.pi := by
      norm_num
    rw [harg, Real.cos_pi]
    norm_num
  · intro s t hst ht
    rcases Nat.lt_or_ge t 10 with ht' | ht'
    · rw [lr_warmup_val s (by omega), lr_warmup_val t ht']
      have hc : (s : ℝ) ≤ (t : ℝ) := Nat.cast_le.mpr hst
      nlinarith
    · have ht10 : t = 10 := by omega
      subst ht10
      rw [h10]
      rcases Nat.lt_or_ge s 10 with hs' | hs'
      · rw [lr_warmup_val s hs']
        have hc : (s : ℝ) ≤ 10 := by exact_mod_cast le_of_lt hs'
        nlinarith
      · have hs10 : s = 10 := by omega
        subst hs10
        rw [h10]
  · intro s t h10s hst ht100
    rw [lr_cosine_val s h10s (by omega), lr_cosine_val t (by omega) ht100]
    have hπ := Real.pi_pos
    have hs0 : (10 : ℝ) ≤ (s : ℝ) := by exact_mod_cast h10s
    have hst' : (s : ℝ) ≤ (t : ℝ) := Nat.cast_le.mpr hst
    have ht' : (t : ℝ) ≤ 100 := by exact_mod_cast ht100
    have hmem_s : Real.pi * ((s : ℝ) - 10) / 90 ∈ Set.Icc 0 Real.pi := by
      constructor
      · apply div_nonneg (mul_nonneg hπ.le (by linarith)) (by norm_num)
      · rw [div_le_iff₀ (by norm_num : (0:ℝ) < 90)]
        nlinarith
    have hmem_t : Real.pi * ((t : ℝ) - 10) / 90 ∈ Set.Icc 0 Real.pi := by
      constructor
      · apply div_nonneg (mul_nonneg hπ.le (by linarith)) (by norm_num)
      · rw [div_le_iff₀ (by norm_num : (0:ℝ) < 90)]
        nlinarith
    have hab : Real.pi * ((s : ℝ) - 10) / 90 ≤ Real.pi * ((t : ℝ) - 10) / 90 := by
      have h1 : Real.pi * ((s : ℝ) - 10) ≤ Real.pi * ((t : ℝ) - 10) :=
        mul_le_mul_of_nonneg_left (by linarith) hπ.le
      linarith
    have hcos := Real.strictAntiOn_cos.antitoneOn hmem_s hmem_t hab
    linarith

/-- Witness for C4: concrete monotonicity instances inside the warmup
and decay windows. -/
theorem lr_schedule_spec_witness :
    pretraining_lr_schedule (1/1000) 10 100 3
      ≤ pretraining_lr_schedule (1/1000) 10 100 7 ∧
    pretraining_lr_schedule (1/1000) 10 100 80
      ≤ pretraining_lr_schedule (1/1000) 10 100 20 :=
  ⟨lr_schedule_spec.2.2.2.1 3 7 (by norm_num) (by norm_num),
   lr_schedule_spec.2.2.2.2 20 80 (by norm_num) (by norm_num) (by norm_num)⟩

end JAXCV
